import Mathlib

/-!
Verification of the admission-and-integrity core of the
secure-fraud-detection-api repository, shallowly embedded in Lean 4.

Each Python function of the core is translated to a pure Lean function:
environment variables become an explicit `EnvConfig` record, the filesystem
becomes an explicit `LoaderEnv` record, the process-wide rate-limiter map
becomes explicit state passing, wall-clock instants become explicit
parameters, and Python exceptions become `Except` errors.
-/

namespace FraudApi

/-- Python `str.strip()`: drop whitespace from both ends.  Defined over the
character list so that concrete instances compute inside the kernel. -/
def strip (s : String) : String :=
  ⟨List.reverse (List.dropWhile Char.isWhitespace
    (List.reverse (List.dropWhile Char.isWhitespace s.data)))⟩

/-- Python `str.lower()`, mapped over the character list. -/
def lower (s : String) : String :=
  ⟨s.data.map Char.toLower⟩

instance {ε α : Type} [DecidableEq ε] [DecidableEq α] :
    DecidableEq (Except ε α)
  | .ok a, .ok b =>
    if h : a = b then isTrue (by rw [h])
    else isFalse (fun hc => by injection hc; contradiction)
  | .ok _, .error _ => isFalse (fun hc => Except.noConfusion hc)
  | .error _, .ok _ => isFalse (fun hc => Except.noConfusion hc)
  | .error e, .error f =>
    if h : e = f then isTrue (by rw [h])
    else isFalse (fun hc => by injection hc; contradiction)

/-- An HTTP error as raised by `fastapi.HTTPException(status_code, detail)`. -/
structure HTTPError where
  status : Nat
  detail : String
deriving DecidableEq, Repr

/-- `app/auth.py` — `CallerIdentity`: role plus a non-sensitive key label. -/
structure CallerIdentity where
  role : String
  key_id : String
deriving DecidableEq, Repr

/-- The two credential environment variables (`API_KEY_ADMIN`,
`API_KEY_SERVICE`); `os.getenv(name, "")` makes an unset variable the
empty string, so raw strings model the environment exactly. -/
structure EnvConfig where
  api_key_admin : String
  api_key_service : String
deriving DecidableEq, Repr

/-- `app/auth.py` — `_read_env_value`: read an environment value and
normalize it by stripping surrounding whitespace. -/
def _read_env_value (value : String) : String :=
  strip value

/-- `app/auth.py` — `_load_api_keys`: the admin and service keys, each
normalized by `_read_env_value`. -/
def _load_api_keys (cfg : EnvConfig) : String × String :=
  (_read_env_value cfg.api_key_admin, _read_env_value cfg.api_key_service)

/-- `app/auth.py` — `authenticate(x_api_key)`.  `x_api_key = none` models a
missing `X-API-Key` header.  Python's `not x_api_key or not
x_api_key.strip()` is true exactly for `None`, `""` and whitespace-only
strings, i.e. exactly when the stripped value is empty. -/
def authenticate (cfg : EnvConfig) (x_api_key : Option String) :
    Except HTTPError CallerIdentity :=
  match x_api_key with
  | none => .error ⟨401, "Missing API key (X-API-Key)."⟩
  | some s =>
    if strip s = "" then
      .error ⟨401, "Missing API key (X-API-Key)."⟩
    else
      let provided_key := strip s
      let keys := _load_api_keys cfg
      let admin_key := keys.1
      let service_key := keys.2
      if admin_key = "" ∧ service_key = "" then
        .error ⟨403, "API keys are not configured on the server."⟩
      else if admin_key ≠ "" ∧ provided_key = admin_key then
        .ok ⟨"admin", "admin-key"⟩
      else if service_key ≠ "" ∧ provided_key = service_key then
        .ok ⟨"service", "service-key"⟩
      else
        .error ⟨403, "Invalid API key."⟩

/-- `app/main.py` — `require_api_key(x_api_key)`.  Python's `if not
x_api_key` rejects `None` and `""`; otherwise the raw header value is
tested for membership in the raw set `{getenv("API_KEY_ADMIN", ""),
getenv("API_KEY_SERVICE", "")}` — no stripping anywhere. -/
def require_api_key (cfg : EnvConfig) (x_api_key : Option String) :
    Except HTTPError String :=
  match x_api_key with
  | none => .error ⟨403, "Invalid API key."⟩
  | some s =>
    if s = "" then
      .error ⟨403, "Invalid API key."⟩
    else if s = cfg.api_key_admin ∨ s = cfg.api_key_service then
      .ok s
    else
      .error ⟨403, "Invalid API key."⟩

end FraudApi

namespace FraudApi

/-- C3: with both credential environment values empty after trimming,
`authenticate` fails with an authorization error (status 401 or 403) for
every presented credential, including `""` and the absent header; no
`CallerIdentity` is ever returned. -/
theorem authenticate_fail_closed_when_unconfigured
    (cfg : EnvConfig) (x : Option String)
    (hA : strip cfg.api_key_admin = "")
    (hS : strip cfg.api_key_service = "") :
    ∃ e : HTTPError, authenticate cfg x = .error e ∧
      (e.status = 401 ∨ e.status = 403) := by
  cases x with
  | none => exact ⟨⟨401, "Missing API key (X-API-Key)."⟩, rfl, Or.inl rfl⟩
  | some s =>
    by_cases hs : strip s = ""
    · exact ⟨⟨401, "Missing API key (X-API-Key)."⟩, by
        simp [authenticate, hs], Or.inl rfl⟩
    · exact ⟨⟨403, "API keys are not configured on the server."⟩, by
        simp [authenticate, _load_api_keys, _read_env_value, hs, hA, hS],
        Or.inr rfl⟩

/-- Witness for C3 at a concrete unconfigured environment and credential. -/
theorem authenticate_fail_closed_when_unconfigured_witness :
    ∃ e : HTTPError,
      authenticate ⟨" ", ""⟩ (some "any-credential") = .error e ∧
        (e.status = 401 ∨ e.status = 403) :=
  authenticate_fail_closed_when_unconfigured ⟨" ", ""⟩
    (some "any-credential") (by decide) (by decide)

/-- Helper: acceptance of the configured admin credential, both sides
stripped. -/
lemma authenticate_admin_of (cfg : EnvConfig) (x : String)
    (hA : strip cfg.api_key_admin ≠ "")
    (hx : strip x = strip cfg.api_key_admin) :
    authenticate cfg (some x) = .ok ⟨"admin", "admin-key"⟩ := by
  have hxne : strip x ≠ "" := by rw [hx]; exact hA
  simp [authenticate, _load_api_keys, _read_env_value, hxne, hA, hx]

/-- Helper: acceptance of the configured service credential when it is
non-empty and distinct from the admin credential. -/
lemma authenticate_service_of (cfg : EnvConfig) (x : String)
    (hS : strip cfg.api_key_service ≠ "")
    (hne : strip cfg.api_key_service ≠ strip cfg.api_key_admin)
    (hx : strip x = strip cfg.api_key_service) :
    authenticate cfg (some x) = .ok ⟨"service", "service-key"⟩ := by
  have hxne : strip x ≠ "" := by rw [hx]; exact hS
  have hnotadmin : ¬(strip cfg.api_key_admin ≠ "" ∧
      strip x = strip cfg.api_key_admin) := by
    rintro ⟨-, h⟩
    exact hne (hx ▸ h)
  have hnotcfg : ¬(strip cfg.api_key_admin = "" ∧
      strip cfg.api_key_service = "") := by
    rintro ⟨-, h⟩
    exact hS h
  simp only [authenticate, _load_api_keys, _read_env_value,
    if_neg hxne, if_neg hnotcfg, if_neg hnotadmin]
  rw [if_pos (And.intro hS hx)]

/-- C10: `authenticate` matches the admin role exactly when the stripped
presented credential equals the stripped configured admin value and that
value is non-empty: both sides of the comparison are stripped, so
whitespace around either the credential or the environment value is
ignored. -/
theorem authenticate_admin_iff_trimmed_match
    (cfg : EnvConfig) (x : String) :
    authenticate cfg (some x) = .ok ⟨"admin", "admin-key"⟩ ↔
      (strip cfg.api_key_admin ≠ "" ∧
        strip x = strip cfg.api_key_admin) := by
  constructor
  · intro h
    by_cases hx : strip x = ""
    · simp [authenticate, hx] at h
    · by_cases hcfg : strip cfg.api_key_admin = "" ∧ strip cfg.api_key_service = ""
      · simp [authenticate, _load_api_keys, _read_env_value, hx, hcfg] at h
      · by_cases hadm : strip cfg.api_key_admin ≠ "" ∧ strip x = strip cfg.api_key_admin
        · exact hadm
        · by_cases hsrv : strip cfg.api_key_service ≠ "" ∧ strip x = strip cfg.api_key_service
          · simp only [authenticate, _load_api_keys, _read_env_value, hx,
              if_neg hx, if_neg hcfg, if_neg hadm, if_pos hsrv] at h
            simp at h
          · simp [authenticate, _load_api_keys, _read_env_value, hx, hcfg,
              hadm, hsrv] at h
  · rintro ⟨hA, hx⟩
    exact authenticate_admin_of cfg x hA hx

/-- C5 counterexample: with the same value configured for both roles, a
credential equal to the configured service value is mapped to the admin
identity, not the service identity. -/
theorem authenticate_duplicate_config_counterexample :
    authenticate ⟨"dup-key", "dup-key"⟩ (some "dup-key") =
        .ok ⟨"admin", "admin-key"⟩ ∧
      authenticate ⟨"dup-key", "dup-key"⟩ (some "dup-key") ≠
        .ok ⟨"service", "service-key"⟩ := by
  constructor
  · decide
  · decide

/-- C5 (amended): a credential whose stripped value equals the non-empty
stripped admin value yields the admin identity; a credential whose
stripped value equals the non-empty stripped service value yields the
service identity provided the service value differs from the admin value
(the admin comparison runs first); the `key_id` is always the fixed
role-derived label. -/
theorem authenticate_exact_role (cfg : EnvConfig) (x : String) :
    (strip cfg.api_key_admin ≠ "" →
      strip x = strip cfg.api_key_admin →
      authenticate cfg (some x) = .ok ⟨"admin", "admin-key"⟩) ∧
    (strip cfg.api_key_service ≠ "" →
      strip cfg.api_key_service ≠ strip cfg.api_key_admin →
      strip x = strip cfg.api_key_service →
      authenticate cfg (some x) = .ok ⟨"service", "service-key"⟩) :=
  ⟨fun hA hx => authenticate_admin_of cfg x hA hx,
   fun hS hne hx => authenticate_service_of cfg x hS hne hx⟩

/-- Witness for C5 (amended) at concrete distinct configured values. -/
theorem authenticate_exact_role_witness :
    authenticate ⟨"admin-secret-123", "service-secret-123"⟩
        (some " service-secret-123 ") = .ok ⟨"service", "service-key"⟩ :=
  (authenticate_exact_role ⟨"admin-secret-123", "service-secret-123"⟩
      " service-secret-123 ").2 (by decide) (by decide) (by decide)

/-- Helper: every rejection of `require_api_key` is the one constant
error `403 / "Invalid API key."`. -/
lemma require_api_key_reject_eq (cfg : EnvConfig) (x : Option String)
    (h : (require_api_key cfg x).isOk = false) :
    require_api_key cfg x = .error ⟨403, "Invalid API key."⟩ := by
  cases x with
  | none => rfl
  | some s =>
    by_cases h1 : s = ""
    · simp [require_api_key, h1]
    · by_cases h2 : s = cfg.api_key_admin ∨ s = cfg.api_key_service
      · simp [require_api_key, h1, h2, Except.isOk, Except.toBool] at h
      · simp [require_api_key, h1, h2]

/-- C7: the rejection outcome of the caller-visible authentication gate
`require_api_key` is the same `403 / "Invalid API key."` in every rejecting
run — in particular a missing or wrong credential against a configured
server and any credential against an unconfigured server (which rejects
everything) produce identical caller-visible errors. -/
theorem require_api_key_rejections_indistinguishable :
    (∀ (cfg : EnvConfig) (x : Option String) (cfg2 : EnvConfig)
        (x2 : Option String),
      (require_api_key cfg x).isOk = false →
      (require_api_key cfg2 x2).isOk = false →
      require_api_key cfg x = require_api_key cfg2 x2) ∧
    (∀ x : Option String, (require_api_key ⟨"", ""⟩ x).isOk = false) := by
  constructor
  · intro cfg x cfg2 x2 h h2
    rw [require_api_key_reject_eq cfg x h,
      require_api_key_reject_eq cfg2 x2 h2]
  · intro x
    cases x with
    | none => rfl
    | some s =>
      by_cases h1 : s = "" <;> simp [require_api_key, h1, Except.isOk, Except.toBool]

/-- Witness for C7: a wrong key against a configured server and the same
key against an unconfigured server yield the same visible error. -/
theorem require_api_key_rejections_indistinguishable_witness :
    require_api_key ⟨"admin-secret-123", "service-secret-123"⟩
        (some "wrong-key") = require_api_key ⟨"", ""⟩ (some "wrong-key") :=
  require_api_key_rejections_indistinguishable.1
    ⟨"admin-secret-123", "service-secret-123"⟩ (some "wrong-key")
    ⟨"", ""⟩ (some "wrong-key") (by decide) (by decide)

/-- `app/middleware.py` — `SimpleRateLimitMiddleware` configuration
(`max_requests`, `window_seconds` constructor arguments). -/
structure RateConfig where
  max_requests : Nat
  window_seconds : Nat
deriving DecidableEq, Repr

/-- The middleware's `self._state` map `identity -> (window_start, count)`;
`time.time()` instants are modelled as rationals.  An identity that was
never seen maps to `none` (`dict.get` misses). -/
def RateState : Type := String → Option (ℚ × Nat)

/-- The initial empty `self._state = {}`. -/
def RateState.empty : RateState := fun _ => none

/-- `app/middleware.py` — `SimpleRateLimitMiddleware.dispatch`, restricted
to its admission logic: look up `(window_start, count)` defaulting to
`(now, 0)`, reset the window if `now - window_start > window_seconds`,
increment the count, store it back, and admit (`true`) unless the stored
post-increment count exceeds `max_requests` (the code returns the 429
response in that case). -/
def rate_limit_dispatch (cfg : RateConfig) (state : RateState)
    (identity : String) (now : ℚ) : RateState × Bool :=
  let p := (state identity).getD (now, 0)
  let p := if now - p.1 > (cfg.window_seconds : ℚ) then (now, 0) else p
  let count := p.2 + 1
  let state' : RateState :=
    fun k => if k = identity then some (p.1, count) else state k
  (state', decide (count ≤ cfg.max_requests))

/-- Iterate `rate_limit_dispatch` over a list of request instants for one
identity, collecting the admission outcomes in order. -/
def rate_limit_run (cfg : RateConfig) (state : RateState)
    (identity : String) : List ℚ → RateState × List Bool
  | [] => (state, [])
  | t :: ts =>
    let step := rate_limit_dispatch cfg state identity t
    let rest := rate_limit_run cfg step.1 identity ts
    (rest.1, step.2 :: rest.2)

/-- Helper: running further requests inside an open window advances only
the count. -/
lemma rate_limit_run_window (cfg : RateConfig) (identity : String)
    (t1 : ℚ) (ts : List ℚ)
    (hwin : ∀ t ∈ ts, t - t1 ≤ (cfg.window_seconds : ℚ)) :
    ∀ (k : Nat) (state : RateState),
      state identity = some (t1, k) →
      (rate_limit_run cfg state identity ts).1 identity =
          some (t1, k + ts.length) ∧
        (rate_limit_run cfg state identity ts).2 =
          (List.range ts.length).map
            (fun i => decide (k + i + 1 ≤ cfg.max_requests)) := by
  induction ts with
  | nil => intro k state hstate; simpa [rate_limit_run] using hstate
  | cons t ts ih =>
    intro k state hstate
    have hno : ¬(t - t1 > (cfg.window_seconds : ℚ)) :=
      not_lt.mpr (hwin t (List.mem_cons_self t ts))
    have hstep : rate_limit_dispatch cfg state identity t =
        (fun j => if j = identity then some (t1, k + 1) else state j,
          decide (k + 1 ≤ cfg.max_requests)) := by
      simp [rate_limit_dispatch, hstate, hno]
    have hstate' :
        (fun j => if j = identity then some (t1, k + 1) else state j)
          identity = some (t1, k + 1) := by simp
    have hrest := ih (fun t ht => hwin t (List.mem_cons_of_mem _ ht))
      (k + 1) (fun j => if j = identity then some (t1, k + 1) else state j)
      hstate'
    refine ⟨?_, ?_⟩
    · show (rate_limit_run cfg
        (rate_limit_dispatch cfg state identity t).1 identity ts).1
          identity = _
      rw [hstep]
      rw [hrest.1]
      simp only [List.length_cons]
      congr 2
      omega
    · show (rate_limit_dispatch cfg state identity t).2 ::
        (rate_limit_run cfg
          (rate_limit_dispatch cfg state identity t).1 identity ts).2 = _
      rw [hstep]
      simp only [hrest.2, List.length_cons, List.range_succ_eq_map,
        List.map_cons, List.map_map]
      refine congrArg₂ _ (by simp) ?_
      apply List.map_congr_left
      intro i _
      simp only [Function.comp]
      rw [decide_eq_decide]
      omega

/-- C2: single-step characterization and window behaviour of the rate
limiter.  (a) One dispatch step follows exactly the coded algorithm:
look up `(window_start, count)` (defaulting to `(now, 0)`), reset if
`now - window_start > window_seconds`, store the incremented count even
when rejecting, touch no other identity's entry, and admit exactly when
the post-increment count is at most `max_requests`.  (b) Starting from a
state that has no entry for the identity, a sequence of requests whose
instants all stay within `window_seconds` of the first is admitted for
requests `1 .. max_requests` and rejected from request
`max_requests + 1` on, while the stored count keeps growing to the full
number of requests. -/
theorem rate_limiter_fixed_window (cfg : RateConfig) (identity : String) :
    (∀ (state : RateState) (now : ℚ),
      (rate_limit_dispatch cfg state identity now).1 identity =
          some (((state identity).getD (now, 0)).1, (((state identity).getD (now, 0)).2) + 1) ∨
        (rate_limit_dispatch cfg state identity now).1 identity =
          some (now, 1)) ∧
    (∀ (state : RateState) (now : ℚ),
      (now - ((state identity).getD (now, 0)).1 >
          (cfg.window_seconds : ℚ) →
        (rate_limit_dispatch cfg state identity now).1 identity =
            some (now, 1) ∧
          ((rate_limit_dispatch cfg state identity now).2 = true ↔
            1 ≤ cfg.max_requests)) ∧
      (¬(now - ((state identity).getD (now, 0)).1 >
          (cfg.window_seconds : ℚ)) →
        (rate_limit_dispatch cfg state identity now).1 identity =
            some (((state identity).getD (now, 0)).1,
              ((state identity).getD (now, 0)).2 + 1) ∧
          ((rate_limit_dispatch cfg state identity now).2 = true ↔
            ((state identity).getD (now, 0)).2 + 1 ≤ cfg.max_requests)) ∧
      (∀ k, k ≠ identity →
        (rate_limit_dispatch cfg state identity now).1 k = state k)) ∧
    (∀ (state : RateState) (t1 : ℚ) (ts : List ℚ),
      state identity = none →
      (∀ t ∈ ts, t - t1 ≤ (cfg.window_seconds : ℚ)) →
      (rate_limit_run cfg state identity (t1 :: ts)).1 identity =
          some (t1, ts.length + 1) ∧
        (rate_limit_run cfg state identity (t1 :: ts)).2 =
          (List.range (ts.length + 1)).map
            (fun i => decide (i + 1 ≤ cfg.max_requests))) := by
  refine ⟨?_, ?_, ?_⟩
  · intro state now
    by_cases h : now - ((state identity).getD (now, 0)).1 >
        (cfg.window_seconds : ℚ)
    · right; simp [rate_limit_dispatch, h]
    · left; simp [rate_limit_dispatch, h]
  · intro state now
    refine ⟨fun h => ?_, fun h => ?_, fun k hk => ?_⟩
    · constructor
      · simp [rate_limit_dispatch, h]
      · simp [rate_limit_dispatch, h]
    · constructor
      · simp [rate_limit_dispatch, h]
      · simp [rate_limit_dispatch, h]
    · simp [rate_limit_dispatch, hk]
  · intro state t1 ts hfresh hwin
    have h0 : ¬(t1 - t1 > (cfg.window_seconds : ℚ)) := by
      simp
    have hstep : rate_limit_dispatch cfg state identity t1 =
        (fun j => if j = identity then some (t1, 1) else state j,
          decide (1 ≤ cfg.max_requests)) := by
      simp [rate_limit_dispatch, hfresh, h0]
    have hstate' :
        (fun j => if j = identity then some (t1, 1) else state j)
          identity = some (t1, 1) := by simp
    have hrest := rate_limit_run_window cfg identity t1 ts hwin 1
      (fun j => if j = identity then some (t1, 1) else state j) hstate'
    constructor
    · show (rate_limit_run cfg
        (rate_limit_dispatch cfg state identity t1).1 identity ts).1
          identity = _
      rw [hstep, hrest.1]
      congr 2
      omega
    · show (rate_limit_dispatch cfg state identity t1).2 ::
        (rate_limit_run cfg
          (rate_limit_dispatch cfg state identity t1).1 identity ts).2 = _
      rw [hstep]
      simp only [hrest.2, List.range_succ_eq_map, List.map_cons,
        List.map_map]
      refine congrArg₂ _ (by simp) ?_
      apply List.map_congr_left
      intro i _
      simp only [Function.comp]
      rw [decide_eq_decide]
      omega

/-- Witness for C2: limit 2 per 60-second window, three requests at the
same instant — the first two are admitted, the third rejected, and the
rejected increment persists (stored count 3). -/
theorem rate_limiter_fixed_window_witness :
    (rate_limit_run ⟨2, 60⟩ RateState.empty "alice" [5, 5, 5]).2 =
        [true, true, false] ∧
      (rate_limit_run ⟨2, 60⟩ RateState.empty "alice" [5, 5, 5]).1
          "alice" = some (5, 3) := by
  have h := (rate_limiter_fixed_window ⟨2, 60⟩ "alice").2.2
    RateState.empty 5 [5, 5] rfl
    (by intro t ht; simp at ht; simp [ht])
  exact ⟨by simpa using h.2, by simpa using h.1⟩

/-- A lowercase hexadecimal digit character, as produced by Python's hex
formatting. -/
def hexChar (n : Nat) : Char :=
  if n < 10 then Char.ofNat (48 + n) else Char.ofNat (87 + n)

/-- `k` lowercase hex digits of `n`, most significant first (fixed width,
zero padded). -/
def hexDigits (n k : Nat) : List Char :=
  (List.range k).map (fun i => hexChar (n / 16 ^ (k - 1 - i) % 16))

/-- `str(uuid.uuid4())`: 32 hex digits of the 128 random bits `r` in the
canonical 8-4-4-4-12 grouping.  (`uuid4` additionally forces the version
nibble to `4` and the variant bits to `10`, which changes digit values but
not the string's shape.) -/
def uuid4_str (r : Nat) : String :=
  ⟨hexDigits (r / 2 ^ 96 % 2 ^ 32) 8⟩ ++ "-" ++
    ⟨hexDigits (r / 2 ^ 80 % 2 ^ 16) 4⟩ ++ "-" ++
    ⟨hexDigits (r / 2 ^ 64 % 2 ^ 16) 4⟩ ++ "-" ++
    ⟨hexDigits (r / 2 ^ 48 % 2 ^ 16) 4⟩ ++ "-" ++
    ⟨hexDigits (r % 2 ^ 48) 12⟩

/-- `app/middleware.py` — `RequestIdMiddleware.dispatch`, restricted to the
request-id assignment: `request.headers.get("X-Request-Id", "").strip()`
is used when non-empty, otherwise `str(uuid.uuid4())` is generated (the
128 random bits are the `r` parameter).  The same value is stored on
`request.state.request_id` and echoed in the `X-Request-Id` response
header. -/
def request_id_dispatch (x_request_id : Option String) (r : Nat) : String :=
  let incoming_request_id := strip (x_request_id.getD "")
  if incoming_request_id ≠ "" then incoming_request_id else uuid4_str r

/-- `app/schemas.py` — `FraudResponse.request_id` carries
`min_length=8, max_length=128`. -/
def request_id_min_length : Nat := 8

/-- `app/schemas.py` — `FraudResponse.request_id` upper length bound. -/
def request_id_max_length : Nat := 128

lemma hexDigits_length (n k : Nat) : (hexDigits n k).length = k := by
  simp [hexDigits]

lemma string_mk_length (l : List Char) : (String.mk l).length = l.length :=
  rfl

/-- Every generated UUID string has exactly the canonical 36 characters. -/
lemma uuid4_str_length (r : Nat) : (uuid4_str r).length = 36 := by
  simp only [uuid4_str, String.length_append, string_mk_length,
    hexDigits_length]
  decide

/-- C6 counterexample: an inbound correlation hint that is non-empty after
trimming but carries surrounding whitespace is NOT assigned verbatim — the
assigned id is the trimmed value. -/
theorem request_id_not_verbatim_counterexample :
    strip " abc-123 " ≠ "" ∧
      request_id_dispatch (some " abc-123 ") 0 ≠ " abc-123 " ∧
      request_id_dispatch (some " abc-123 ") 0 = "abc-123" := by
  refine ⟨by decide, by decide, by decide⟩

/-- C6 (amended): the assigned correlation id is exactly the inbound value
after trimming (hence exactly the inbound value whenever the hint carries
no surrounding whitespace, e.g. `"abc-123"`), and when no hint is supplied
the assigned id is the freshly generated UUID-form string, which is
non-empty, has the canonical 36 characters, and satisfies the response
schema's `request_id` length bounds `8 ≤ len ≤ 128`. -/
theorem request_id_assignment (h : Option String) (r : Nat) :
    (strip (h.getD "") ≠ "" →
      request_id_dispatch h r = strip (h.getD "")) ∧
    (h = Option.none →
      request_id_dispatch h r = uuid4_str r) ∧
    uuid4_str r ≠ "" ∧
    (uuid4_str r).length = 36 ∧
    request_id_min_length ≤ (uuid4_str r).length ∧
    (uuid4_str r).length ≤ request_id_max_length := by
  refine ⟨fun hne => ?_, fun hnone => ?_, ?_, uuid4_str_length r, ?_, ?_⟩
  · simp [request_id_dispatch, hne]
  · subst hnone
    simp [request_id_dispatch, strip]
  · intro hcontra
    have := uuid4_str_length r
    rw [hcontra] at this
    simp at this
  · rw [uuid4_str_length r]
    decide
  · rw [uuid4_str_length r]
    decide

/-- Witness for C6 (amended): a clean hint is propagated verbatim; with no
hint, the generated id is the UUID string. -/
theorem request_id_assignment_witness :
    request_id_dispatch (some "abc-123") 7 = "abc-123" ∧
      request_id_dispatch Option.none 7 = uuid4_str 7 :=
  ⟨((request_id_assignment (some "abc-123") 7).1 (by decide)).trans
      (by decide),
    (request_id_assignment Option.none 7).2.1 rfl⟩

/-- `app/model_loader.py` — `ModelHandle`. -/
structure ModelHandle where
  version : String
  artifact_path : String
deriving DecidableEq, Repr

/-- The `active_model` manifest section after Python's `str(...)` coercion
of each field (`str(active.get("version", ""))` and friends); a missing
key yields `""`. -/
structure ActiveSection where
  version : String
  path : String
  sha256 : String
deriving DecidableEq, Repr

/-- The filesystem as observed by one `load_active_model` call.
`manifestParse = none` models `json.loads` raising on malformed JSON;
`some none` models a missing or falsy `active_model` entry; `some (some
a)` a usable section.  `files` maps each existing path to its byte
contents (`Path.exists` plus the bytes the streaming reader consumes).
`pathlib.Path` round-trips the already-normalized relative path strings
used here, so `str(Path(p)) = p` is modelled as the identity. -/
structure LoaderEnv where
  manifestExists : Bool
  manifestParse : Option (Option ActiveSection)
  files : String → Option (List Nat)

/-- Case-insensitive comparison of hex digest strings. -/
def hexEqCI (s t : String) : Prop :=
  lower s = lower t

instance (s t : String) : Decidable (hexEqCI s t) :=
  inferInstanceAs (Decidable (lower s = lower t))

/-- `app/model_loader.py` — `load_active_model`, parameterized by the
digest function `hash` modelling `_sha256_file` (the streaming loop reads
the file's full byte contents, so the digest is a function of those
bytes; `hashlib`'s `hexdigest()` output is lowercase hex, captured by the
`hLower` hypothesis of the theorems below). -/
def load_active_model (hash : List Nat → String) (env : LoaderEnv) :
    Except String ModelHandle :=
  if env.manifestExists = false then
    .error "Model manifest not found: model_artifacts/manifest.json"
  else
    match env.manifestParse with
    | Option.none => .error "manifest is not valid JSON"
    | some Option.none => .error "Manifest missing 'active_model' section."
    | some (some active) =>
      let version := strip active.version
      let artifact_path_str := strip active.path
      let expected_sha256 := lower (strip active.sha256)
      if version = "" ∨ artifact_path_str = "" ∨ expected_sha256 = "" then
        .error "Manifest active_model must include version, path, sha256."
      else
        match env.files artifact_path_str with
        | Option.none => .error ("Model artifact not found: " ++
            artifact_path_str)
        | some bytes =>
          let actual_sha256 := hash bytes
          if actual_sha256 ≠ expected_sha256 then
            .error ("Model artifact checksum mismatch. expected=" ++
              expected_sha256 ++ " actual=" ++ actual_sha256)
          else
            .ok ⟨version, artifact_path_str⟩

lemma lower_eq_empty_iff (s : String) : lower s = "" ↔ s = "" := by
  cases s with
  | mk data =>
    constructor
    · intro h
      have hd : List.map Char.toLower data = [] := congrArg String.data h
      cases data
      · rfl
      · simp at hd
    · intro h
      have hd : data = [] := congrArg String.data h
      rw [hd]
      rfl

/-- C1: `load_active_model` returns a handle exactly when the manifest
exists, parses to a usable non-empty `active_model` section whose version,
path and sha256 are non-empty after trimming, the declared artifact file
exists, and the streaming digest of its bytes equals the declared digest
under case-insensitive hex comparison; in every other case the call fails,
and on success the handle carries exactly the manifest's (trimmed) version
and artifact path. -/
theorem load_active_model_iff (hash : List Nat → String)
    (hLower : ∀ bs, lower (hash bs) = hash bs) (env : LoaderEnv) :
    ((∃ h, load_active_model hash env = .ok h) ↔
      (env.manifestExists = true ∧
        ∃ a, env.manifestParse = some (some a) ∧
          strip a.version ≠ "" ∧ strip a.path ≠ "" ∧
          strip a.sha256 ≠ "" ∧
          ∃ bs, env.files (strip a.path) = some bs ∧
            hexEqCI (hash bs) (strip a.sha256))) ∧
    (∀ h, load_active_model hash env = .ok h →
      ∃ a, env.manifestParse = some (some a) ∧
        h.version = strip a.version ∧ h.artifact_path = strip a.path) := by
  constructor
  · constructor
    · rintro ⟨h, hok⟩
      unfold load_active_model at hok
      by_cases hman : env.manifestExists = false
      · simp [hman] at hok
      · have hman' : env.manifestExists = true := by
          cases hme : env.manifestExists
          · exact absurd hme hman
          · rfl
        refine ⟨hman', ?_⟩
        simp only [hman', Bool.true_eq_false, if_false] at hok
        match hparse : env.manifestParse with
        | Option.none => rw [hparse] at hok; exact absurd hok (by simp)
        | some Option.none => rw [hparse] at hok; exact absurd hok (by simp)
        | some (some a) =>
          rw [hparse] at hok
          refine ⟨a, rfl, ?_⟩
          by_cases hempty : strip a.version = "" ∨ strip a.path = "" ∨
              lower (strip a.sha256) = ""
          · simp only [hempty, if_true] at hok
            exact absurd hok (by simp)
          · simp only [hempty, if_false] at hok
            push_neg at hempty
            obtain ⟨hv, hp, hsha⟩ := hempty
            refine ⟨hv, hp, fun hc => hsha ((lower_eq_empty_iff _).mpr hc), ?_⟩
            match hfile : env.files (strip a.path) with
            | Option.none => rw [hfile] at hok; exact absurd hok (by simp)
            | some bytes =>
              rw [hfile] at hok
              dsimp only at hok
              refine ⟨bytes, rfl, ?_⟩
              by_cases hmatch : hash bytes ≠ lower (strip a.sha256)
              · rw [if_pos hmatch] at hok
                exact absurd hok (by simp)
              · push_neg at hmatch
                show lower (hash bytes) = lower (strip a.sha256)
                rw [hLower bytes, hmatch]
    · rintro ⟨hman, a, hparse, hv, hp, hsha, bytes, hfile, hci⟩
      have hsha' : lower (strip a.sha256) ≠ "" := fun hc =>
        hsha ((lower_eq_empty_iff _).mp hc)
      have hmatch : hash bytes = lower (strip a.sha256) := by
        have h1 : lower (hash bytes) = lower (strip a.sha256) := hci
        rw [hLower bytes] at h1
        exact h1
      refine ⟨⟨strip a.version, strip a.path⟩, ?_⟩
      unfold load_active_model
      simp only [hman, Bool.true_eq_false, if_false, hparse]
      have hcond : ¬(strip a.version = "" ∨ strip a.path = "" ∨
          lower (strip a.sha256) = "") := by
        push_neg
        exact ⟨hv, hp, hsha'⟩
      simp only [hcond, if_false, hfile]
      simp [hmatch]
  · intro h hok
    unfold load_active_model at hok
    by_cases hman : env.manifestExists = false
    · simp [hman] at hok
    · have hman' : env.manifestExists = true := by
        cases hme : env.manifestExists
        · exact absurd hme hman
        · rfl
      simp only [hman', Bool.true_eq_false, if_false] at hok
      match hparse : env.manifestParse with
      | Option.none => rw [hparse] at hok; exact absurd hok (by simp)
      | some Option.none => rw [hparse] at hok; exact absurd hok (by simp)
      | some (some a) =>
        rw [hparse] at hok
        refine ⟨a, rfl, ?_⟩
        by_cases hempty : strip a.version = "" ∨ strip a.path = "" ∨
            lower (strip a.sha256) = ""
        · simp only [hempty, if_true] at hok
          exact absurd hok (by simp)
        · simp only [hempty, if_false] at hok
          match hfile : env.files (strip a.path) with
          | Option.none => rw [hfile] at hok; exact absurd hok (by simp)
          | some bytes =>
            rw [hfile] at hok
            dsimp only at hok
            by_cases hmatch : hash bytes ≠ lower (strip a.sha256)
            · rw [if_pos hmatch] at hok
              exact absurd hok (by simp)
            · rw [if_neg hmatch] at hok
              have := Except.ok.inj hok
              rw [← this]
              exact ⟨rfl, rfl⟩

/-- Witness for C1: a concrete environment in which the digest matches the
declared checksum case-insensitively and loading succeeds with the
manifest's version and path. -/
theorem load_active_model_iff_witness :
    (∃ h, load_active_model (fun _ => "aa")
      ⟨true, some (some ⟨"v1", "model_artifacts/model.bin", "AA"⟩),
        fun p => if p = "model_artifacts/model.bin" then
          some [0, 1] else Option.none⟩ = .ok h) :=
  (load_active_model_iff (fun _ => "aa") (fun _ => rfl)
    ⟨true, some (some ⟨"v1", "model_artifacts/model.bin", "AA"⟩),
      fun p => if p = "model_artifacts/model.bin" then
        some [0, 1] else Option.none⟩).1.mpr
    ⟨rfl, ⟨"v1", "model_artifacts/model.bin", "AA"⟩, rfl, by decide,
      by decide, by decide, [0, 1], by decide, by decide⟩

/-- The status component of an `Except HTTPError` outcome, `none` on
success. -/
def errorStatus {α : Type} : Except HTTPError α → Option Nat
  | .error e => some e.status
  | .ok _ => none

/-- C9 counterexample: against the same configured server, (a) on a
missing credential `authenticate` raises status 401 while
`require_api_key` raises status 403, so the two entry points do not carry
the same status code on rejection; and (b) on the whitespace-padded
credential `" admin-secret-123 "` `authenticate` returns an identity while
`require_api_key` rejects, so they also disagree as acceptors on
credentials carrying leading or trailing whitespace. -/
theorem authenticate_require_divergence_counterexample :
    errorStatus (authenticate ⟨"admin-secret-123", "service-secret-123"⟩
        none) = some 401 ∧
      errorStatus (require_api_key
        ⟨"admin-secret-123", "service-secret-123"⟩ none) = some 403 ∧
      (401 : Nat) ≠ 403 ∧
      (authenticate ⟨"admin-secret-123", "service-secret-123"⟩
        (some " admin-secret-123 ")).isOk = true ∧
      (require_api_key ⟨"admin-secret-123", "service-secret-123"⟩
        (some " admin-secret-123 ")).isOk = false :=
  ⟨rfl, rfl, by decide, by decide, by decide⟩

/-- C9 (amended): when the configured values and the presented credential
carry no surrounding whitespace, the two entry points are equivalent as
acceptors; their rejection statuses still differ on a missing credential
(401 from `authenticate`, 403 from `require_api_key`). -/
theorem authenticate_require_agree_as_acceptors
    (cfg : EnvConfig) (x : Option String)
    (hA : strip cfg.api_key_admin = cfg.api_key_admin)
    (hS : strip cfg.api_key_service = cfg.api_key_service)
    (hx : ∀ s, x = some s → strip s = s) :
    (authenticate cfg x).isOk = (require_api_key cfg x).isOk ∧
      authenticate cfg none = .error ⟨401, "Missing API key (X-API-Key)."⟩ ∧
      require_api_key cfg none = .error ⟨403, "Invalid API key."⟩ := by
  refine ⟨?_, rfl, rfl⟩
  cases x with
  | none => rfl
  | some s =>
    have hs : strip s = s := hx s rfl
    by_cases h1 : s = ""
    · subst h1
      simp [authenticate, require_api_key, hs, Except.isOk, Except.toBool]
    · have hstrip : strip s ≠ "" := by rw [hs]; exact h1
      by_cases h2 : cfg.api_key_admin = "" <;>
        by_cases h3 : cfg.api_key_service = "" <;>
          by_cases h4 : s = cfg.api_key_admin <;>
            by_cases h5 : s = cfg.api_key_service <;>
              simp_all [authenticate, require_api_key, _load_api_keys,
                _read_env_value, Except.isOk, Except.toBool]

/-- Witness for C9 (amended): a whitespace-free configured value and
credential are accepted by both entry points. -/
theorem authenticate_require_agree_as_acceptors_witness :
    (authenticate ⟨"admin-secret-123", "service-secret-123"⟩
        (some "admin-secret-123")).isOk =
      (require_api_key ⟨"admin-secret-123", "service-secret-123"⟩
        (some "admin-secret-123")).isOk :=
  (authenticate_require_agree_as_acceptors
    ⟨"admin-secret-123", "service-secret-123"⟩ (some "admin-secret-123")
    (by decide) (by decide)
    (fun s hs => by cases hs; decide)).1

end FraudApi

namespace FraudApi

/-- A Python value as stored in an audit event mapping. -/
inductive PyVal where
  | str : String → PyVal
  | int : Int → PyVal
  | float : ℚ → PyVal
  | bool : Bool → PyVal
  | none : PyVal
deriving DecidableEq, Repr

/-- A Python `dict` with string keys, as an insertion-ordered association
list with unique keys (CPython semantics). -/
def PyDict : Type := List (String × PyVal)

instance : DecidableEq PyDict :=
  inferInstanceAs (DecidableEq (List (String × PyVal)))

/-- `d[k]` lookup (`None`-free: `Option`-valued). -/
def dict_get : PyDict → String → Option PyVal
  | [], _ => Option.none
  | (k1, v1) :: d, k => if k = k1 then some v1 else dict_get d k

/-- `d[k] = v`: replace the value of an existing key in place, keeping its
position, or append a new key at the end — CPython's dict-assignment
semantics. -/
def dict_set : PyDict → String → PyVal → PyDict
  | [], k, v => [(k, v)]
  | (k1, v1) :: d, k, v =>
    if k1 = k then (k1, v) :: d else (k1, v1) :: dict_set d k v

/-- `dict(event)`: a shallow copy.  In the pure embedding the copy is the
value itself; the significant point, mirrored by `write_audit_event`
below, is that the caller's mapping is left untouched. -/
def dict_copy (d : PyDict) : PyDict := d

/-- A decimal digit character. -/
def digitChar (n : Nat) : Char := Char.ofNat (48 + n)

/-- `w` decimal digits of `n`, most significant first, zero padded —
Python's `%0wd` formatting for the in-range field values of a
`datetime`. -/
def natDigits (w n : Nat) : List Char :=
  (List.range w).map (fun i => digitChar (n / 10 ^ (w - 1 - i) % 10))

/-- A UTC wall-clock instant as carried by
`datetime.now(timezone.utc)`. -/
structure UtcTime where
  year : Nat
  month : Nat
  day : Nat
  hour : Nat
  minute : Nat
  second : Nat
  microsecond : Nat
deriving DecidableEq, Repr

/-- The date-time core of `datetime.isoformat()`:
`YYYY-MM-DDTHH:MM:SS[.ffffff]`, the fractional part omitted when the
microsecond field is zero.  It consists of digits and the separators
`-T:.` only — in particular it never contains `+`. -/
def isoCore (t : UtcTime) : String :=
  ⟨natDigits 4 t.year⟩ ++ "-" ++ ⟨natDigits 2 t.month⟩ ++ "-" ++
    ⟨natDigits 2 t.day⟩ ++ "T" ++ ⟨natDigits 2 t.hour⟩ ++ ":" ++
    ⟨natDigits 2 t.minute⟩ ++ ":" ++ ⟨natDigits 2 t.second⟩ ++
    (if t.microsecond = 0 then "" else "." ++ ⟨natDigits 6 t.microsecond⟩)

/-- `datetime.now(timezone.utc).isoformat()`: the core followed by the UTC
offset `+00:00`. -/
def isoformat_utc (t : UtcTime) : String :=
  isoCore t ++ "+00:00"

/-- `app/audit_logger.py` — `_utc_now_iso`:
`isoformat().replace("+00:00", "Z")`.  The core contains no `+`
character, so the single occurrence of `+00:00` in `isoformat_utc` is its
trailing offset and the replace swaps exactly that suffix for `Z`. -/
def _utc_now_iso (t : UtcTime) : String :=
  isoCore t ++ "Z"

/-- `app/audit_logger.py` — `write_audit_event(event)`.  The current
instant is the explicit `t` parameter, and the append-only
`logs/audit.log` is the explicit `log` list (one entry per
`json.dumps`-serialized JSONL line).  The function copies the caller's
mapping, sets the `timestamp` field on the copy, and appends; the first
component of the result returns the caller's mapping, which the code
never rebinds or mutates. -/
def write_audit_event (event : PyDict) (t : UtcTime) (log : List PyDict) :
    PyDict × List PyDict :=
  let event_to_write :=
    dict_set (dict_copy event) "timestamp" (.str (_utc_now_iso t))
  (event, log ++ [event_to_write])

lemma dict_get_dict_set_self (d : PyDict) (k : String) (v : PyVal) :
    dict_get (dict_set d k v) k = some v := by
  induction d with
  | nil => simp [dict_set, dict_get]
  | cons p d ih =>
    obtain ⟨k1, v1⟩ := p
    by_cases h : k1 = k
    · simp [dict_set, dict_get, h]
    · simp only [dict_set, if_neg h, dict_get]
      rw [if_neg (fun hc => h hc.symm)]
      exact ih

lemma dict_get_dict_set_ne (d : PyDict) (k : String) (v : PyVal)
    (k' : String) (h : k' ≠ k) :
    dict_get (dict_set d k v) k' = dict_get d k' := by
  induction d with
  | nil => simp [dict_set, dict_get, h]
  | cons p d ih =>
    obtain ⟨k1, v1⟩ := p
    by_cases h1 : k1 = k
    · subst h1
      simp [dict_set, dict_get, h]
    · simp only [dict_set, if_neg h1, dict_get]
      by_cases h2 : k' = k1
      · simp [h2]
      · simp only [if_neg h2]
        exact ih

lemma dict_set_keys_of_absent (d : PyDict) (k : String) (v : PyVal)
    (h : dict_get d k = Option.none) :
    (dict_set d k v).map Prod.fst = d.map Prod.fst ++ [k] := by
  induction d with
  | nil => simp [dict_set]
  | cons p d ih =>
    obtain ⟨k1, v1⟩ := p
    simp only [dict_get] at h
    by_cases h2 : k = k1
    · rw [if_pos h2] at h
      exact absurd h (by simp)
    · rw [if_neg h2] at h
      have h3 : ¬(k1 = k) := fun hc => h2 (Eq.symm hc)
      simp only [dict_set]
      rw [if_neg h3]
      simp only [List.map_cons]
      rw [ih h]
      simp

/-- C8 counterexample: a caller-supplied `timestamp` field is overwritten
by the generated timestamp, so the appended record does not preserve every
input field's original value and no field is added for it. -/
theorem write_audit_event_timestamp_overwrite_counterexample :
    (write_audit_event [("timestamp", PyVal.str "old")]
        ⟨2026, 2, 13, 10, 15, 30, 123456⟩ []).2 =
      [[("timestamp", PyVal.str "2026-02-13T10:15:30.123456Z")]] ∧
      PyVal.str "2026-02-13T10:15:30.123456Z" ≠ PyVal.str "old" := by
  refine ⟨by decide, by decide⟩

/-- C8 (amended): `write_audit_event` leaves the caller's mapping
untouched and appends exactly one record: the input with its `timestamp`
key set to the generated ISO-8601 UTC string ending in `Z` — every field
other than `timestamp` keeps its original value, and when the input has no
`timestamp` field the record is exactly the input plus one added
`timestamp` field at the end. -/
theorem write_audit_event_frame (event : PyDict) (t : UtcTime)
    (log : List PyDict) :
    (write_audit_event event t log).1 = event ∧
    (write_audit_event event t log).2 =
      log ++ [dict_set event "timestamp" (PyVal.str (_utc_now_iso t))] ∧
    (∀ k, k ≠ "timestamp" →
      dict_get (dict_set event "timestamp" (PyVal.str (_utc_now_iso t))) k =
        dict_get event k) ∧
    dict_get (dict_set event "timestamp" (PyVal.str (_utc_now_iso t)))
        "timestamp" = some (PyVal.str (_utc_now_iso t)) ∧
    (dict_get event "timestamp" = Option.none →
      (dict_set event "timestamp" (PyVal.str (_utc_now_iso t))).map
          Prod.fst = event.map Prod.fst ++ ["timestamp"]) ∧
    ∃ core, _utc_now_iso t = core ++ "Z" := by
  refine ⟨rfl, rfl, ?_, ?_, ?_, ⟨isoCore t, rfl⟩⟩
  · intro k hk
    exact dict_get_dict_set_ne event "timestamp" _ k hk
  · exact dict_get_dict_set_self event "timestamp" _
  · intro habsent
    exact dict_set_keys_of_absent event "timestamp" _ habsent

/-- Witness for C8 (amended) on a concrete event without a `timestamp`
field. -/
theorem write_audit_event_frame_witness :
    dict_get (dict_set [("event_type", PyVal.str "prediction")] "timestamp"
        (PyVal.str (_utc_now_iso ⟨2026, 2, 13, 10, 15, 30, 0⟩)))
        "event_type" = some (PyVal.str "prediction") ∧
      (dict_set [("event_type", PyVal.str "prediction")] "timestamp"
          (PyVal.str (_utc_now_iso ⟨2026, 2, 13, 10, 15, 30, 0⟩))).map
        Prod.fst = ["event_type", "timestamp"] := by
  refine ⟨?_, ?_⟩
  · exact ((write_audit_event_frame [("event_type", PyVal.str "prediction")]
      ⟨2026, 2, 13, 10, 15, 30, 0⟩ []).2.2.1 "event_type"
        (by decide)).trans (by decide)
  · exact ((write_audit_event_frame [("event_type", PyVal.str "prediction")]
      ⟨2026, 2, 13, 10, 15, 30, 0⟩ []).2.2.2.2.1 (by decide)).trans
        (by decide)

/-- `app/schemas.py` — `FraudDecision`. -/
inductive FraudDecision where
  | allow
  | review
  | block
deriving DecidableEq, Repr

/-- `app/schemas.py` — the `FraudResponse` fields the handler populates. -/
structure FraudResponse where
  request_id : String
  model_version : String
  score : ℚ
  decision : FraudDecision
deriving DecidableEq, Repr

/-- `app/main.py` — the `/v1/predict` handler registered by `create_app`
(`app/routes/predict.py` holds a line-for-line identical twin that is
never included in the app).  `state_request_id` models
`getattr(request.state, "request_id", None)`; Python's `or str(uuid4())`
falls through on `None` and `""`, with `fresh` the generated UUID string.
The audit log is threaded through explicitly to expose the handler's
audit writes: the handler contains no call to `write_audit_event`, so the
log passes through untouched. -/
def predict (state_request_id : Option String) (fresh : String)
    (audit_log : List PyDict) : FraudResponse × List PyDict :=
  let request_id :=
    match state_request_id with
    | some s => if s ≠ "" then s else fresh
    | Option.none => fresh
  let score : ℚ := 0.50
  let decision :=
    if score ≥ 0.80 then FraudDecision.block
    else if score ≥ 0.50 then FraudDecision.review
    else FraudDecision.allow
  (⟨request_id, "v1-placeholder", score, decision⟩, audit_log)

/-- C4 counterexample: a successfully answered request appends no audit
record at all — the store gains zero records, not exactly one. -/
theorem predict_no_audit_record_counterexample :
    ((predict (some "req-12345678")
        "123e4567-e89b-12d3-a456-426614174000" []).2).length ≠ 1 := by
  intro h
  simp [predict] at h

/-- C4 (amended): the pipeline's predict handler never invokes the audit
sink: for every request the audit store after the call equals the store
before it, so no audit record (matching or not) is produced. -/
theorem predict_appends_no_audit_record (state_request_id : Option String)
    (fresh : String) (audit_log : List PyDict) :
    (predict state_request_id fresh audit_log).2 = audit_log := rfl

end FraudApi
